import Mathlib

/-
Verification development for the bidi-tee repository (src/bidi-tee.cc,
src/bidi-tee-print.cc, src/block-header.h).

Bytes are modelled as natural numbers below 256; C buffers become lists of
bytes.  Machine integers are modelled as Int or Nat with explicit reductions
modulo a power of two where the C code truncates (bit-fields).  The capture
multiplexer is driven by an explicit list of read events (one event per
CopyUsingBuffer call the select loop performs); the replay tool is a fold
over the frames decoded from the log.
-/

set_option maxRecDepth 4000

namespace BidiTee

/-- strBytes turns an ASCII string literal into the list of byte values it
denotes; it is used to write the byte sequences emitted by fprintf and
fwrite calls of the replay tool. -/
def strBytes (s : String) : List Nat := s.toList.map Char.toNat

/-- catl concatenates a list of byte blocks. -/
def catl : List (List Nat) → List Nat
  | [] => []
  | x :: xs => x ++ catl xs

/-- BlockHeader mirrors struct BlockHeader of src/block-header.h: a signed
64-bit timestamp, a 4-bit channel, a 1-bit channel_closed flag, 43 reserved
bits and a 16-bit block_size.  Both bidi-tee.cc and bidi-tee-print.cc also
access an exit_code member that block-header.h in src does not declare; the
spec (sections 4.3 and 9) says the numeric exit code lives in an
implementation-chosen field carved out of the reserved bits, so the model
carries it as the explicit field exit_code (zero in all ordinary frames,
standing for the reserved bits which are zeroed on write). -/
structure BlockHeader where
  timestamp_ns : Int
  channel : Nat
  channel_closed : Bool
  exit_code : Nat
  block_size : Nat
deriving Repr, DecidableEq

/-- Frame is one log record: a 16-byte header immediately followed by
block_size payload bytes. -/
structure Frame where
  header : BlockHeader
  payload : List Nat
deriving Repr, DecidableEq

/-- CopierState is the mutable state of one ChannelCopier of bidi-tee.cc:
the channel id fixed at construction and the persistent
header_.channel_closed flag. -/
structure CopierState where
  channel : Nat
  channel_closed : Bool
deriving Repr, DecidableEq

/-- CopyUsingBuffer models ChannelCopier::CopyUsingBuffer of bidi-tee.cc
(lines 80-97).  Inputs: the copier state, the timestamp computed for this
wake-up, the result r of the read(2) call, the buffer contents the read
produced, and the byte count the writev(2) call to the log reported.
Outputs: the updated copier state, the single Frame handed to writev
(header plus payload), and the boolean the C function returns, namely
whether writev transferred the whole expected length 16 + iov_len.
The bit-field header_.block_size truncates to 16 bits, hence the mod 65536. -/
def CopyUsingBuffer (cs : CopierState) (timestamp : Int) (r : Int)
    (scratch : List Nat) (teeWritten : Int) : CopierState × Frame × Bool :=
  let iovLen : Nat := if 0 < r then r.toNat else 0
  let input_closed : Bool := decide (r ≤ 0)
  let hdr : BlockHeader :=
    { timestamp_ns := timestamp
      channel := cs.channel
      channel_closed := input_closed
      exit_code := 0
      block_size := iovLen % 65536 }
  ({ cs with channel_closed := input_closed },
   ({ header := hdr, payload := scratch.take iovLen },
    decide (teeWritten = 16 + (iovLen : Int))))

/-- CapEvent is one pump of the select loop of bidi-tee.cc main: the copier
that was ready (0 = stdin copier, 1 = stdout copier, 2 = stderr copier),
the timestamp of the wake-up, the read(2) result, the bytes the read put in
copy_buf, and the writev(2) result for the log write. -/
structure CapEvent where
  chan : Fin 3
  timestamp : Int
  readResult : Int
  scratch : List Nat
  teeWritten : Int
deriving Repr, DecidableEq

/-- captureLoop models the multiplexing loop of bidi-tee.cc main (lines
191-206): a closed copier is removed from the fd set and never pumped
again; an open ready copier is pumped by CopyUsingBuffer and the resulting
frame is appended to the log.  The boolean CopyUsingBuffer returns is
discarded, exactly as the call on line 203 of bidi-tee.cc discards it. -/
def captureLoop : (Fin 3 → Bool) → List CapEvent → List Frame
  | _, [] => []
  | closedf, e :: es =>
    if closedf e.chan then captureLoop closedf es
    else
      let step := CopyUsingBuffer ⟨e.chan.val, closedf e.chan⟩ e.timestamp
        e.readResult e.scratch e.teeWritten
      step.2.1 :: captureLoop (fun j => if j = e.chan then step.1.channel_closed else closedf j) es

/-- ExitFrame is the terminal frame bidi-tee.cc main writes after waitpid
(lines 211-215): channel 15, zeroed flags and size, the child
exit status stored in the exit_code field. -/
def ExitFrame (timestamp : Int) (code : Nat) : Frame :=
  { header := { timestamp_ns := timestamp, channel := 15, channel_closed := false,
                exit_code := code, block_size := 0 }
    payload := [] }

/-- captureRun is a whole run of the capture tool after a successful spawn:
the loop frames, then the terminal frame, and the process exit status
(the child exit status, or 120 when the write of the terminal frame fails,
bidi-tee.cc lines 208-220). -/
def captureRun (events : List CapEvent) (exitTimestamp : Int) (childExit : Nat)
    (exitWriteResult : Int) : List Frame × Nat :=
  let frames := captureLoop (fun _ => false) events
  if exitWriteResult < 0 then (frames, 120)
  else (frames ++ [ExitFrame exitTimestamp childExit], childExit)

/-- PrintOptions mirrors struct PrintOptions of bidi-tee-print.cc (defaults
in the source: colored = true, ascii_escape = false,
ascii_escape_break_after_newline = true). -/
structure PrintOptions where
  colored : Bool
  ascii_escape : Bool
  ascii_escape_break_after_newline : Bool
deriving Repr, DecidableEq

/-- decNat is the byte sequence printf produces for a nonnegative integer
(conversions u and d of bidi-tee-print.cc). -/
def decNat (n : Nat) : List Nat := strBytes (toString n)

/-- fmtSp models a printf conversion with a field width and space padding,
such as the conversion of since_start / 1000000 in bidi-tee-print.cc. -/
def fmtSp (w : Nat) (i : Int) : List Nat :=
  let s := strBytes (toString i)
  List.replicate (w - s.length) 32 ++ s

/-- fmtZe models a zero-padded printf conversion such as the 06ld of
bidi-tee-print.cc; for a negative argument printf places the sign before
the zero padding. -/
def fmtZe (w : Nat) (i : Int) : List Nat :=
  if i < 0 then
    let s := strBytes (toString i.natAbs)
    45 :: (List.replicate (w - 1 - s.length) 48 ++ s)
  else
    let s := strBytes (toString i.toNat)
    List.replicate (w - s.length) 48 ++ s

/-- hexDigit is the lowercase hexadecimal digit byte for a value below 16. -/
def hexDigit (n : Nat) : Nat := if n < 10 then 48 + n else 87 + n

/-- hexNatAux writes n in lowercase hexadecimal, most significant digit
first; the fuel argument only bounds the recursion depth and 16 is enough
for every value below 2 to the 64. -/
def hexNatAux : Nat → Nat → List Nat
  | 0, _ => []
  | fuel+1, n => if n < 16 then [hexDigit n] else hexNatAux fuel (n / 16) ++ [hexDigit (n % 16)]

/-- hexNat is the hexadecimal digit string of n (no padding). -/
def hexNat (n : Nat) : List Nat := hexNatAux 16 n

/-- fmtHex02 models the printf conversion 02x: hexadecimal, zero padded to
at least two digits. -/
def fmtHex02 (n : Nat) : List Nat :=
  let s := hexNat n
  List.replicate (2 - s.length) 48 ++ s

/-- signedChar is the value of a byte read through the C type char on the
x86-64 System V ABI the tool is built for, where char is signed: bytes of
value 128 and above are negative. -/
def signedChar (b : Nat) : Int := if b < 128 then (b : Int) else (b : Int) - 256

/-- asUInt32 is the value printf prints for the conversion x: the argument
promoted to int and reinterpreted as a 32-bit unsigned integer. -/
def asUInt32 (i : Int) : Nat := (i % 4294967296).toNat

/-- PrintCEscaped models PrintCEscaped of bidi-tee-print.cc (lines 46-69):
newline becomes backslash-n optionally followed by a real newline, carriage
return and tab become two-character escapes, any other byte whose value as
a signed char is below 32 (the space character) is printed through
fprintf with the format backslash-x-02x, and every remaining byte is
written unchanged. -/
def PrintCEscaped (opts : PrintOptions) : List Nat → List Nat
  | [] => []
  | b :: rest =>
    (if b == 10 then
       (if opts.ascii_escape_break_after_newline then [92, 110, 10] else [92, 110])
     else if b == 13 then [92, 114]
     else if b == 9 then [92, 116]
     else if signedChar b < 32 then [92, 120] ++ fmtHex02 (asUInt32 (signedChar b))
     else [b]) ++ PrintCEscaped opts rest

/-- kColors of bidi-tee-print.cc: escape sequence wrapped around channel 0
(bold red) and channel 1 (bold blue); channel 2 gets the empty string. -/
def kColors (channel : Nat) : List Nat :=
  if channel == 0 then 27 :: strBytes "[1;31m"
  else if channel == 1 then 27 :: strBytes "[1;34m"
  else []

/-- kResetColor of bidi-tee-print.cc. -/
def kResetColor : List Nat := 27 :: strBytes "[0m"

/-- PrintContent models PrintContent of bidi-tee-print.cc (lines 71-83):
optional color for channels below 3, the payload raw or escaped, and an
unconditional color reset whenever color is on. -/
def PrintContent (opts : PrintOptions) (channel : Nat) (content : List Nat) : List Nat :=
  (if opts.colored && decide (channel < 3) then kColors channel else []) ++
  (if opts.ascii_escape then PrintCEscaped opts content else content) ++
  (if opts.colored then kResetColor else [])

/-- PrintChannel of bidi-tee-print.cc (lines 85-93). -/
def PrintChannel (channel : Nat) : String :=
  if channel == 0 then "->"
  else if channel == 1 then "<-"
  else if channel == 2 then "<="
  else if channel == 15 then "EXIT"
  else "??"

/-- TSPrint is the timestamp mode enumeration of bidi-tee-print.cc main. -/
inductive TSPrint where
  | kNone
  | kStartFile
  | kDelta
  | kAbsolute
deriving Repr, DecidableEq

/-- ReplayState is the mutable state of the replay loop of
bidi-tee-print.cc main: start_timestamp (sentinel -1 before the first
frame), last_was_newline, and the delta timestamp marker character dmark
(a space before the first printed delta, a plus sign afterwards). -/
structure ReplayState where
  start_timestamp : Int
  last_was_newline : Bool
  dmark : Nat
deriving Repr, DecidableEq

/-- st0 is the state at the top of the replay loop: start_timestamp -1,
last_was_newline true, marker equal to the space character. -/
def st0 : ReplayState := { start_timestamp := -1, last_was_newline := true, dmark := 32 }

/-- replayStep models one iteration body of the replay loop of
bidi-tee-print.cc main (lines 183-248) once the frame has been read:
seed start_timestamp from the first frame of the log, drop the frame
when its channel is not selected, otherwise move to a line boundary when a
timestamp mode is active, print the timestamp prescript, then either the
channel-closed line, the exit-code line (both only when a timestamp mode is
active), or the payload through PrintContent followed by the
last_was_newline update that indexes copy_buf at block_size - 1.  The
absolute mode delegates the strftime of the local calendar time to the
abstract absFmt argument (locale and time zone formatting are outside the
model).  Result: new state, whether the frame passed the channel filter,
and the bytes written for this frame. -/
def replayStep (sel : List Nat) (mode : TSPrint) (opts : PrintOptions)
    (absFmt : Int → String) (st : ReplayState) (f : Frame) :
    ReplayState × Bool × List Nat :=
  let ts := f.header.timestamp_ns
  let start1 : Int := if st.start_timestamp < 0 then ts else st.start_timestamp
  if !(sel.contains f.header.channel) then
    ({ st with start_timestamp := start1 }, (false, []))
  else
    let nl : List Nat := if mode ≠ TSPrint.kNone ∧ st.last_was_newline = false then [10] else []
    let since := ts - start1
    let chT := strBytes (PrintChannel f.header.channel)
    let pre : List Nat :=
      match mode with
      | TSPrint.kNone => []
      | TSPrint.kStartFile =>
          fmtSp 6 (Int.tdiv since 1000000) ++ [46] ++ fmtZe 6 (Int.tmod since 1000000) ++
            strBytes "ms " ++ chT ++ strBytes ": "
      | TSPrint.kDelta =>
          st.dmark :: (fmtSp 5 (Int.tdiv since 1000000) ++ [46] ++ fmtZe 6 (Int.tmod since 1000000) ++
            strBytes "ms " ++ chT ++ strBytes ": ")
      | TSPrint.kAbsolute =>
          strBytes "[" ++ strBytes (absFmt (Int.tdiv ts 1000000000)) ++ [46] ++
            fmtZe 9 (Int.tmod ts 1000000000) ++ strBytes "] " ++ chT ++ strBytes ": "
    let st1 : ReplayState :=
      match mode with
      | TSPrint.kDelta => { st with start_timestamp := ts, dmark := 43 }
      | _ => { st with start_timestamp := start1 }
    if f.header.channel_closed then
      if mode ≠ TSPrint.kNone then
        ({ st1 with last_was_newline := true },
         (true, nl ++ pre ++ strBytes "<channel " ++ decNat f.header.channel ++
           strBytes " closed>" ++ [10]))
      else (st1, (true, []))
    else if f.header.channel == 15 then
      if mode ≠ TSPrint.kNone then
        ({ st1 with last_was_newline := true },
         (true, nl ++ pre ++ strBytes "Exit code " ++ decNat f.header.exit_code ++ [10]))
      else (st1, (true, []))
    else
      let body := PrintContent opts f.header.channel (f.payload.take f.header.block_size)
      let lastNl : Bool :=
        ((f.payload.get? (f.header.block_size - 1)).getD 0 == 10) &&
        (!opts.ascii_escape || opts.ascii_escape_break_after_newline)
      ({ st1 with last_was_newline := lastNl }, (true, nl ++ pre ++ body))

/-- replayGo folds replayStep over a list of frames, recording for every
frame whether it passed the channel filter and the bytes it produced. -/
def replayGo (sel : List Nat) (mode : TSPrint) (opts : PrintOptions) (absFmt : Int → String) :
    ReplayState → List Frame → List (Frame × Bool × List Nat) × ReplayState
  | st, [] => ([], st)
  | st, f :: fs =>
    let one := replayStep sel mode opts absFmt st f
    let rest := replayGo sel mode opts absFmt one.1 fs
    ((f, one.2.1, one.2.2) :: rest.1, rest.2)

/-- replayOut is the byte stream the replay tool writes to its output for a
given decoded log, starting from the initial state. -/
def replayOut (sel : List Nat) (mode : TSPrint) (opts : PrintOptions)
    (absFmt : Int → String) (log : List Frame) : List Nat :=
  catl (((replayGo sel mode opts absFmt st0 log).1).map (fun t => t.2.2))

/-- leU64 reads a little-endian unsigned integer from a list of bytes (the
in-memory order of the x86-64 struct both tools share). -/
def leU64 : List Nat → Nat
  | [] => 0
  | b :: rest => b + 256 * leU64 rest

/-- Modelled from the spec: block-header.h in src declares 43 reserved bits
where both tools nevertheless access an exit_code member, and the spec
(sections 4.3 and 9) says the implementation must allocate an explicit
exit-code field inside those reserved bits; the model places it in their
low 8 bits, that is bits 5 to 12 of the second 64-bit word. -/
def exitCodeBits (hi : Nat) : Nat := (hi / 32) % 256

/-- decodeHeader reads the 16-byte on-disk header: bytes 0-7 are the
little-endian two-complement int64 timestamp; bytes 8-15 are a 64-bit word
whose bit-fields are, from the least significant bit up (the gcc layout on
a little-endian target), channel (4 bits), channel_closed (1 bit), the
reserved bits holding the exit code, and block_size (bits 48-63). -/
def decodeHeader (bs : List Nat) : BlockHeader :=
  let lo := leU64 (bs.take 8)
  let hi := leU64 ((bs.drop 8).take 8)
  { timestamp_ns :=
      if lo < 9223372036854775808 then (lo : Int) else (lo : Int) - 18446744073709551616
    channel := hi % 16
    channel_closed := decide ((hi / 16) % 2 = 1)
    exit_code := exitCodeBits hi
    block_size := hi / 281474976710656 }

/-- readLoopFuel is the frame-reading skeleton of the replay loop of
bidi-tee-print.cc main (lines 182-192): fread of a 16-byte header returns 1
only when all 16 bytes are present, so any shorter tail (0 to 15 bytes)
ends the loop with success; a positive block_size whose payload bytes are
not all present prints the unexpected-end-of-file message, sets
EXIT_FAILURE and breaks.  The fuel argument only bounds the recursion;
every iteration consumes at least 16 bytes, so length + 1 always
suffices. -/
def readLoopFuel : Nat → List Nat → List Frame × Bool
  | 0, _ => ([], true)
  | fuel+1, bytes =>
    if bytes.length < 16 then ([], true)
    else
      let hdr := decodeHeader (bytes.take 16)
      let rest := bytes.drop 16
      if hdr.block_size == 0 then
        let res := readLoopFuel fuel rest
        ({ header := hdr, payload := [] } :: res.1, res.2)
      else if rest.length < hdr.block_size then ([], false)
      else
        let res := readLoopFuel fuel (rest.drop hdr.block_size)
        ({ header := hdr, payload := rest.take hdr.block_size } :: res.1, res.2)

/-- replayReadLoop parses a raw log into frames with adequate fuel; the
boolean is true exactly when the loop ended at a clean end of log (exit
status EXIT_SUCCESS) and false on a truncated payload (EXIT_FAILURE). -/
def replayReadLoop (bytes : List Nat) : List Frame × Bool :=
  readLoopFuel (bytes.length + 1) bytes

/-- replayMainBytes is the whole replay tool on a raw log: the rendered
output bytes and the process exit status. -/
def replayMainBytes (sel : List Nat) (mode : TSPrint) (opts : PrintOptions)
    (absFmt : Int → String) (bytes : List Nat) : List Nat × Nat :=
  let parsed := replayReadLoop bytes
  (replayOut sel mode opts absFmt parsed.1, if parsed.2 then 0 else 1)

/-- u64bytes writes the k low-order bytes of a value, little-endian. -/
def u64bytes : Nat → Nat → List Nat
  | 0, _ => []
  | k+1, v => v % 256 :: u64bytes k (v / 256)

/-- encodeHeader is the 16-byte on-disk image of a header, the inverse of
decodeHeader on well-formed headers: the writev of bidi-tee.cc writes the
in-memory struct verbatim and fread reads it back into the same struct. -/
def encodeHeader (h : BlockHeader) : List Nat :=
  let lo : Nat := (h.timestamp_ns % 18446744073709551616).toNat
  let hi : Nat := h.channel % 16 + 16 * (if h.channel_closed then 1 else 0) +
    32 * (h.exit_code % 256) + 281474976710656 * (h.block_size % 65536)
  u64bytes 8 lo ++ u64bytes 8 hi

/-- encodeFrame is the on-disk image of one frame: header then payload. -/
def encodeFrame (f : Frame) : List Nat := encodeHeader f.header ++ f.payload

/-- encodeLog is the on-disk image of a frame sequence. -/
def encodeLog (log : List Frame) : List Nat := catl (log.map encodeFrame)

/-- HeaderWF: the header fields fit their bit-field widths and the
timestamp fits int64. -/
def HeaderWF (h : BlockHeader) : Prop :=
  h.channel < 16 ∧ h.exit_code < 256 ∧ h.block_size < 65536 ∧
  -(9223372036854775808 : Int) ≤ h.timestamp_ns ∧ h.timestamp_ns < 9223372036854775808

/-- FrameWF: a well-formed on-disk frame carries exactly block_size payload
bytes. -/
def FrameWF (f : Frame) : Prop := HeaderWF f.header ∧ f.payload.length = f.header.block_size

/-- EventsWF: what the operating system guarantees about every read the
select loop performs: read(2) returns at most the buffer capacity 65535,
a positive result is the number of bytes placed in the buffer, and the
clock value fits int64. -/
def EventsWF (events : List CapEvent) : Prop :=
  ∀ e ∈ events, e.readResult ≤ 65535 ∧
    (0 < e.readResult → e.readResult.toNat ≤ e.scratch.length) ∧
    -(9223372036854775808 : Int) ≤ e.timestamp ∧ e.timestamp < 9223372036854775808

/-- readBytesOn is the byte stream actually read from one channel during
capture, in order: the bytes of every positive read on that channel while
it is still open.  This is the original per-channel stream of the
round-trip property, defined from the events alone. -/
def readBytesOn : (Fin 3 → Bool) → Fin 3 → List CapEvent → List Nat
  | _, _, [] => []
  | closedf, c, e :: es =>
    if closedf e.chan then readBytesOn closedf c es
    else
      (if e.chan = c ∧ 0 < e.readResult then e.scratch.take e.readResult.toNat else []) ++
      readBytesOn (fun j => if j = e.chan then decide (e.readResult ≤ 0) else closedf j) c es

/-- renderedBytesOn restricts the per-frame outputs of a replay run to the
frames of one channel and concatenates them. -/
def renderedBytesOn (c : Nat) (triples : List (Frame × Bool × List Nat)) : List Nat :=
  catl ((triples.filter (fun t => t.1.header.channel == c)).map (fun t => t.2.2))

/-- reachesPrint holds of a frame that reaches the PrintContent call of the
replay loop (and hence the copy_buf index at block_size - 1): its channel
is selected, it is not a channel-closed marker and not the channel-15
terminal frame. -/
def reachesPrint (sel : List Nat) (f : Frame) : Bool :=
  sel.contains f.header.channel && !f.header.channel_closed && !(f.header.channel == 15)

/-- kNoneOut is the bytes one frame contributes to the output when no
timestamp mode is active: nothing for unselected frames, channel-closed
markers and the terminal frame, and PrintContent of the payload
otherwise. -/
def kNoneOut (sel : List Nat) (opts : PrintOptions) (f : Frame) : List Nat :=
  if sel.contains f.header.channel then
    if f.header.channel_closed then []
    else if f.header.channel == 15 then []
    else PrintContent opts f.header.channel (f.payload.take f.header.block_size)
  else []

end BidiTee

namespace BidiTee

/-- Every frame the capture loop emits is on one of the live channels 0, 1
or 2, regardless of the read results. -/
theorem captureLoop_channel_lt (events : List CapEvent) :
    ∀ closedf : Fin 3 → Bool, ∀ f ∈ captureLoop closedf events, f.header.channel < 3 := by
  induction events with
  | nil =>
    intro closedf f hf
    simp [captureLoop] at hf
  | cons e es ih =>
    intro closedf f hf
    rw [captureLoop] at hf
    by_cases hc : closedf e.chan = true
    · rw [if_pos hc] at hf
      exact ih _ f hf
    · rw [if_neg hc] at hf
      rcases List.mem_cons.mp hf with h | h
      · subst h
        simp [CopyUsingBuffer]
      · exact ih _ f h

/-- Structure of every frame the capture loop emits, under the operating
system guarantees EventsWF: live channel, zero reserved bits, a block size
within the 16-bit field, an int64 timestamp, an empty payload exactly on
the close transition and a payload of exactly block_size bytes (at least
one) otherwise. -/
theorem mem_captureLoop {events : List CapEvent} (hwf : EventsWF events) :
    ∀ closedf : Fin 3 → Bool, ∀ f ∈ captureLoop closedf events,
      f.header.channel < 3 ∧ f.header.exit_code = 0 ∧ f.header.block_size < 65536 ∧
      -(9223372036854775808 : Int) ≤ f.header.timestamp_ns ∧
      f.header.timestamp_ns < 9223372036854775808 ∧
      (f.header.channel_closed = true → f.header.block_size = 0 ∧ f.payload = []) ∧
      (f.header.channel_closed = false →
        1 ≤ f.header.block_size ∧ f.payload.length = f.header.block_size) := by
  induction events with
  | nil =>
    intro closedf f hf
    simp [captureLoop] at hf
  | cons e es ih =>
    intro closedf f hf
    have he := hwf e (List.mem_cons_self e es)
    have hwf2 : EventsWF es := fun x hx => hwf x (List.mem_cons_of_mem e hx)
    rw [captureLoop] at hf
    by_cases hc : closedf e.chan = true
    · rw [if_pos hc] at hf
      exact ih hwf2 _ f hf
    · rw [if_neg hc] at hf
      rcases List.mem_cons.mp hf with h | h
      · subst h
        obtain ⟨h65, hlen, hts0, hts1⟩ := he
        by_cases hr : (0 : Int) < e.readResult
        · have hle : ¬ (e.readResult ≤ 0) := not_le.mpr hr
          have htn : e.readResult.toNat ≤ 65535 := by omega
          have hmod : e.readResult.toNat % 65536 = e.readResult.toNat :=
            Nat.mod_eq_of_lt (by omega)
          have hlen2 : e.readResult.toNat ≤ e.scratch.length := hlen hr
          simp [CopyUsingBuffer, hr, hle, hmod, List.length_take]
          omega
        · have hle : e.readResult ≤ 0 := not_lt.mp hr
          simp [CopyUsingBuffer, hr, hle]
          omega
      · exact ih hwf2 _ f h

/-- C2: every call of the channel copier pump CopyUsingBuffer with read
result r emits exactly one frame (the single header-plus-payload pair
handed to writev), whose channel is the id fixed at construction, whose
channel_closed flag is true exactly when r is zero or negative, whose
block_size equals r when r is positive and 0 otherwise, and whose payload
is exactly the r bytes the read placed in the buffer.  The hypothesis
r at most 65535 is the read(2) contract: the buffer offered to read has
capacity 65535. -/
theorem C2_pump_frame (cs : CopierState) (timestamp : Int) (r : Int)
    (scratch : List Nat) (teeWritten : Int) (hr : r ≤ 65535) :
    (CopyUsingBuffer cs timestamp r scratch teeWritten).2.1.header.channel = cs.channel ∧
    ((CopyUsingBuffer cs timestamp r scratch teeWritten).2.1.header.channel_closed = true ↔
      r ≤ 0) ∧
    (CopyUsingBuffer cs timestamp r scratch teeWritten).2.1.header.block_size =
      (if 0 < r then r.toNat else 0) ∧
    (CopyUsingBuffer cs timestamp r scratch teeWritten).2.1.payload =
      scratch.take (if 0 < r then r.toNat else 0) ∧
    (CopyUsingBuffer cs timestamp r scratch teeWritten).2.1.header.timestamp_ns = timestamp := by
  by_cases hpos : (0 : Int) < r
  · have hle : ¬ (r ≤ 0) := not_le.mpr hpos
    have hmod : r.toNat % 65536 = r.toNat := Nat.mod_eq_of_lt (by omega)
    simp [CopyUsingBuffer, hpos, hle, hmod]
  · have hle : r ≤ 0 := not_lt.mp hpos
    simp [CopyUsingBuffer, hpos, hle]

/-- C2 witness: the pump at a concrete read of 3 bytes. -/
theorem C2_pump_frame_witness :
    (CopyUsingBuffer ⟨1, false⟩ 50 3 [7, 8, 9, 10] 19).2.1.header.channel = 1 ∧
    ((CopyUsingBuffer ⟨1, false⟩ 50 3 [7, 8, 9, 10] 19).2.1.header.channel_closed = true ↔
      (3 : Int) ≤ 0) ∧
    (CopyUsingBuffer ⟨1, false⟩ 50 3 [7, 8, 9, 10] 19).2.1.header.block_size =
      (if (0 : Int) < 3 then (3 : Int).toNat else 0) ∧
    (CopyUsingBuffer ⟨1, false⟩ 50 3 [7, 8, 9, 10] 19).2.1.payload =
      [7, 8, 9, 10].take (if (0 : Int) < 3 then (3 : Int).toNat else 0) ∧
    (CopyUsingBuffer ⟨1, false⟩ 50 3 [7, 8, 9, 10] 19).2.1.header.timestamp_ns = 50 :=
  C2_pump_frame ⟨1, false⟩ 50 3 [7, 8, 9, 10] 19 (by decide)

/-- C9: invariant of every frame the capture loop writes for the live
channels: channel_closed holds exactly when block_size is 0; every
data-bearing frame has block_size at least 1 and every close marker has an
empty payload. -/
theorem C9_closed_iff_size_zero (events : List CapEvent) (hwf : EventsWF events) :
    ∀ f ∈ captureLoop (fun _ => false) events,
      (f.header.channel_closed = true ↔ f.header.block_size = 0) ∧
      (f.header.channel_closed = true → f.payload = []) ∧
      (f.header.channel_closed = false → 1 ≤ f.header.block_size) := by
  intro f hf
  obtain ⟨-, -, -, -, -, hcl, hop⟩ := mem_captureLoop hwf _ f hf
  cases hb : f.header.channel_closed with
  | false =>
    have h1 := (hop hb).1
    exact ⟨⟨fun h => Bool.noConfusion h, fun h => (by omega : False).elim⟩,
      fun h => Bool.noConfusion h, fun _ => h1⟩
  | true =>
    exact ⟨⟨fun _ => (hcl hb).1, fun _ => rfl⟩, fun _ => (hcl hb).2,
      fun h => Bool.noConfusion h⟩

/-- C9 witness: a concrete two-event run, one data read and one close. -/
theorem C9_closed_iff_size_zero_witness :
    ((⟨⟨5, 0, false, 0, 2⟩, [1, 2]⟩ : Frame).header.channel_closed = true ↔
      (⟨⟨5, 0, false, 0, 2⟩, [1, 2]⟩ : Frame).header.block_size = 0) ∧
    ((⟨⟨9, 0, true, 0, 0⟩, []⟩ : Frame).header.channel_closed = true ↔
      (⟨⟨9, 0, true, 0, 0⟩, []⟩ : Frame).header.block_size = 0) :=
  ⟨(C9_closed_iff_size_zero [⟨0, 5, 2, [1, 2, 3], 18⟩, ⟨0, 9, 0, [], 16⟩]
      (by unfold EventsWF; decide) _ (by decide)).1,
   (C9_closed_iff_size_zero [⟨0, 5, 2, [1, 2, 3], 18⟩, ⟨0, 9, 0, [], 16⟩]
      (by unfold EventsWF; decide) _ (by decide)).1⟩

end BidiTee

namespace BidiTee

/-- The multiplexing loop never consults the writev result: the frames it
logs are the same whatever byte counts the log writes report. -/
theorem captureLoop_tee_irrelevant (events : List CapEvent) :
    ∀ closedf : Fin 3 → Bool,
      captureLoop closedf (events.map (fun e => { e with teeWritten := 0 })) =
        captureLoop closedf events := by
  induction events with
  | nil => intro closedf; rfl
  | cons e es ih =>
    intro closedf
    by_cases hc : closedf e.chan = true
    · simp only [List.map_cons, captureLoop, hc, if_true]
      exact ih _
    · simp only [List.map_cons, captureLoop, hc, if_false, Bool.false_eq_true]
      simp only [CopyUsingBuffer]
      rw [ih]

/-- C3: the claim says a combined header-plus-payload log write that
transfers fewer than 16 + block_size bytes aborts the multiplexing loop
and exits with a fixed non-zero status.  The code computes that very
condition (CopyUsingBuffer returns written == expected_len) but main,
line 203 of bidi-tee.cc, discards the returned boolean, so a short log
write changes nothing: the loop output is independent of the reported
writev byte counts, and on a concrete run whose first log write transfers
only 2 of the expected 19 bytes the loop still processes the next event
and the tool still exits with the child exit status 0. -/
theorem C3_short_log_write_ignored :
    (∀ (events : List CapEvent) (closedf : Fin 3 → Bool),
      captureLoop closedf (events.map (fun e => { e with teeWritten := 0 })) =
        captureLoop closedf events) ∧
    captureRun [⟨0, 100, 3, [104, 101, 121], 2⟩, ⟨1, 200, 1, [33], 17⟩] 900 0 7 =
      ([⟨⟨100, 0, false, 0, 3⟩, [104, 101, 121]⟩, ⟨⟨200, 1, false, 0, 1⟩, [33]⟩,
        ExitFrame 900 0], 0) :=
  ⟨fun events => captureLoop_tee_irrelevant events, by decide⟩

/-- C7: with the terminal write succeeding, the capture tool exit status
equals the child exit status; the log contains exactly one channel-15
frame, it is the last frame, written after the child status is collected,
and its recorded exit code is that same status. -/
theorem C7_exit_propagation (events : List CapEvent) (exitTimestamp : Int)
    (childExit : Nat) (exitWriteResult : Int) (hw : 0 ≤ exitWriteResult) :
    (captureRun events exitTimestamp childExit exitWriteResult).2 = childExit ∧
    (captureRun events exitTimestamp childExit exitWriteResult).1.filter
        (fun f => f.header.channel == 15) = [ExitFrame exitTimestamp childExit] ∧
    (ExitFrame exitTimestamp childExit).header.exit_code = childExit ∧
    (captureRun events exitTimestamp childExit exitWriteResult).1.getLast? =
      some (ExitFrame exitTimestamp childExit) := by
  have hnl : ¬ (exitWriteResult < 0) := not_lt.mpr hw
  have hfilter : (captureLoop (fun _ => false) events).filter
      (fun f => f.header.channel == 15) = [] := by
    rw [List.filter_eq_nil_iff]
    intro f hf
    have h3 := captureLoop_channel_lt events _ f hf
    simp only [beq_iff_eq]
    omega
  refine ⟨by simp [captureRun, hnl], ?_, by simp [ExitFrame], ?_⟩
  · simp [captureRun, hnl, List.filter_append, hfilter, ExitFrame]
  · simp [captureRun, hnl, List.getLast?_concat]

/-- C7 witness: a run with no loop events, child exit status 42, terminal
write succeeding. -/
theorem C7_exit_propagation_witness : (captureRun [] 7 42 0).2 = 42 :=
  (C7_exit_propagation [] 7 42 0 (by decide)).1

end BidiTee

namespace BidiTee

/-- The boolean replayGo records for a frame is exactly the channel-filter
membership test of bidi-tee-print.cc line 194. -/
theorem replayStep_flag (sel : List Nat) (mode : TSPrint) (opts : PrintOptions)
    (absFmt : Int → String) (st : ReplayState) (f : Frame) :
    (replayStep sel mode opts absFmt st f).2.1 = sel.contains f.header.channel := by
  by_cases hmem : f.header.channel ∈ sel <;>
    cases mode <;> simp [replayStep, hmem] <;> split <;> (try split) <;> first | rfl | simp

/-- With no timestamp mode active, the bytes one replay step emits depend
only on the frame: kNoneOut. -/
theorem replayStep_kNone_out (sel : List Nat) (opts : PrintOptions)
    (absFmt : Int → String) (st : ReplayState) (f : Frame) :
    (replayStep sel TSPrint.kNone opts absFmt st f).2.2 = kNoneOut sel opts f := by
  by_cases hmem : f.header.channel ∈ sel <;>
    simp [replayStep, kNoneOut, hmem] <;> split <;> (try split) <;> first | rfl | simp

/-- Unfolding of the whole replay fold when no timestamp mode is active:
every frame contributes kNoneOut, independent of the loop state. -/
theorem replayGo_kNone (sel : List Nat) (opts : PrintOptions) (absFmt : Int → String)
    (log : List Frame) :
    ∀ st : ReplayState, (replayGo sel TSPrint.kNone opts absFmt st log).1 =
      log.map (fun f => (f, sel.contains f.header.channel, kNoneOut sel opts f)) := by
  induction log with
  | nil => intro st; rfl
  | cons f fs ih =>
    intro st
    simp only [replayGo, List.map_cons]
    rw [ih, replayStep_flag, replayStep_kNone_out]

/-- A per-frame output that is empty on filtered-out frames makes the
concatenated output insensitive to removing those frames. -/
theorem catl_filter_out (g : Frame → List Nat) (p : Frame → Bool)
    (h : ∀ f, p f = false → g f = []) :
    ∀ l : List Frame, catl (l.map g) = catl ((l.filter p).map g) := by
  intro l
  induction l with
  | nil => rfl
  | cons f fs ih =>
    cases hp : p f
    · simp only [List.map_cons, catl, List.filter_cons, hp, Bool.false_eq_true, if_false]
      rw [h f hp, ih]
      rfl
    · simp only [List.map_cons, catl, List.filter_cons, hp, if_true]
      rw [ih]

/-- A frame whose channel is not selected contributes no bytes when no
timestamp mode is active. -/
theorem kNoneOut_not_selected (sel : List Nat) (opts : PrintOptions) (f : Frame)
    (h : sel.contains f.header.channel = false) : kNoneOut sel opts f = [] := by
  have hm : f.header.channel ∉ sel := by simpa using h
  simp [kNoneOut, hm]

/-- Every recorded filter flag in a replay run equals the membership test
of the frame channel in the selection set. -/
theorem replayGo_flag (sel : List Nat) (mode : TSPrint) (opts : PrintOptions)
    (absFmt : Int → String) (log : List Frame) :
    ∀ st : ReplayState, ∀ t ∈ (replayGo sel mode opts absFmt st log).1,
      t.2.1 = sel.contains t.1.header.channel := by
  induction log with
  | nil =>
    intro st t ht
    simp [replayGo] at ht
  | cons f fs ih =>
    intro st t ht
    simp only [replayGo] at ht
    rcases List.mem_cons.mp ht with h | h
    · subst h
      exact replayStep_flag sel mode opts absFmt st f
    · exact ih _ t h

/-- C5: half one, every frame the replay renders (one that passed the
filter) has its channel in the selection set; half two, with no timestamp
mode active the rendered output is identical to the rendered output for
the same log with all frames of unselected channels removed.  (With a
timestamp mode active the second half fails, because the reference
timestamp is seeded from the first frame of the log before the filter
runs: see the counterexample.) -/
theorem C5_filter_closure (sel : List Nat) (mode : TSPrint) (opts : PrintOptions)
    (absFmt : Int → String) (log : List Frame) :
    (∀ t ∈ (replayGo sel mode opts absFmt st0 log).1,
      t.2.1 = true → sel.contains t.1.header.channel = true) ∧
    (mode = TSPrint.kNone →
      replayOut sel mode opts absFmt log =
        replayOut sel mode opts absFmt
          (log.filter (fun f => sel.contains f.header.channel))) := by
  constructor
  · intro t ht hflag
    have hgo : t.2.1 = sel.contains t.1.header.channel :=
      replayGo_flag sel mode opts absFmt log st0 t ht
    rw [← hgo]
    exact hflag
  · intro hm
    subst hm
    unfold replayOut
    rw [replayGo_kNone, replayGo_kNone]
    simp only [List.map_map]
    have hcomp : ((fun t : Frame × Bool × List Nat => t.2.2) ∘
        (fun f => (f, sel.contains f.header.channel, kNoneOut sel opts f))) =
        fun f => kNoneOut sel opts f := rfl
    rw [hcomp]
    exact catl_filter_out _ _ (kNoneOut_not_selected sel opts) log

end BidiTee

namespace BidiTee

/-- C5 amended, witness: a concrete log and selection with no timestamp
mode, where the output equals the output on the pre-filtered log. -/
theorem C5_filter_closure_witness :
    replayOut [0] TSPrint.kNone ⟨false, false, true⟩ (fun _ => "")
        [⟨⟨3, 1, false, 0, 1⟩, [65]⟩] =
      replayOut [0] TSPrint.kNone ⟨false, false, true⟩ (fun _ => "")
        ([⟨⟨3, 1, false, 0, 1⟩, [65]⟩].filter (fun f => [0].contains f.header.channel)) :=
  (C5_filter_closure [0] TSPrint.kNone ⟨false, false, true⟩ (fun _ => "")
    [⟨⟨3, 1, false, 0, 1⟩, [65]⟩]).2 rfl

/-- C5 counterexample: under the since-start timestamp mode the claim
fails: the first frame of the log sets the reference timestamp before the
filter runs (bidi-tee-print.cc line 183 precedes line 194), so removing
the unselected channel-0 frame changes the printed timestamp of the
selected channel-1 frame from 2.000000ms to 0.000000ms. -/
theorem C5_filter_counterexample :
    replayOut [1] TSPrint.kStartFile ⟨false, false, true⟩ (fun _ => "")
        [⟨⟨5000000, 0, false, 0, 1⟩, [72]⟩, ⟨⟨7000000, 1, false, 0, 1⟩, [66]⟩] ≠
      replayOut [1] TSPrint.kStartFile ⟨false, false, true⟩ (fun _ => "")
        ([⟨⟨5000000, 0, false, 0, 1⟩, [72]⟩, ⟨⟨7000000, 1, false, 0, 1⟩, [66]⟩].filter
          (fun f => [1].contains f.header.channel)) := by decide

/-- C8 amended: a channel-1 frame with channel_closed true and empty
payload, arriving at a line boundary under the since-start mode, renders
as one line that is the since-start timestamp prescript (six space-padded
millisecond digits, a dot, six zero-padded microsecond digits, then
"ms <-: ") followed by the text in angle brackets, channel 1 closed, and a
terminating newline; afterwards last_was_newline is true.  The claim as
frozen says the line is the angle-bracket text and nothing else, which the
counterexample refutes. -/
theorem C8_closed_line (opts : PrintOptions) (absFmt : Int → String) (st : ReplayState)
    (ts : Int) (hnl : st.last_was_newline = true) :
    (replayStep [0, 1, 2, 15] TSPrint.kStartFile opts absFmt st
        ⟨⟨ts, 1, true, 0, 0⟩, []⟩).2.2 =
      fmtSp 6 (Int.tdiv (ts - (if st.start_timestamp < 0 then ts else st.start_timestamp))
          1000000) ++ [46] ++
      fmtZe 6 (Int.tmod (ts - (if st.start_timestamp < 0 then ts else st.start_timestamp))
          1000000) ++
      strBytes "ms <-: <channel 1 closed>" ++ [10] ∧
    (replayStep [0, 1, 2, 15] TSPrint.kStartFile opts absFmt st
        ⟨⟨ts, 1, true, 0, 0⟩, []⟩).1.last_was_newline = true := by
  constructor
  · simp [replayStep, hnl, PrintChannel]
    decide
  · simp [replayStep]

/-- C8 witness: the amended statement applied at the initial replay state
and timestamp 0. -/
theorem C8_closed_line_witness :
    (replayStep [0, 1, 2, 15] TSPrint.kStartFile ⟨true, false, true⟩ (fun _ => "") st0
        ⟨⟨0, 1, true, 0, 0⟩, []⟩).1.last_was_newline = true :=
  (C8_closed_line ⟨true, false, true⟩ (fun _ => "") st0 0 rfl).2

/-- C8 counterexample: on the one-frame log of the claim, replay under
since-start mode does not print the bare angle-bracket line: it prints the
timestamp prescript first. -/
theorem C8_closed_line_counterexample :
    replayOut [0, 1, 2, 15] TSPrint.kStartFile ⟨true, false, true⟩ (fun _ => "")
        [⟨⟨0, 1, true, 0, 0⟩, []⟩] ≠ strBytes "<channel 1 closed>" ++ [10] := by decide

/-- C6 amended: per byte, in escape mode: newline renders as backslash-n
plus a real newline exactly when the newline-break option is on; carriage
return and tab render as backslash-r and backslash-t; any other byte below
32 renders as backslash-x and exactly two hex digits; bytes 32 to 127 pass
through unchanged; bytes 128 to 255 are negative as the signed char the
code reads them through, take the escape branch, and render as backslash-x
followed by eight hex digits of the sign-extended 32-bit value.  The
example of the claim holds: A, 0x07, B, newline renders as the literal
text A backslash x07 B backslash n, plus a real newline exactly when the
newline-break option is on. -/
theorem C6_escape_amended (brk : Bool) :
    (∀ b, b < 256 →
      PrintCEscaped ⟨true, true, brk⟩ [b] =
        (if b = 10 then (if brk then [92, 110, 10] else [92, 110])
         else if b = 13 then [92, 114]
         else if b = 9 then [92, 116]
         else if b < 32 then [92, 120] ++ fmtHex02 b
         else if b < 128 then [b]
         else [92, 120] ++ strBytes "ffffff" ++ fmtHex02 b)) ∧
    PrintCEscaped ⟨true, true, true⟩ [65, 7, 66, 10] = strBytes "A\\x07B\\n" ++ [10] ∧
    PrintCEscaped ⟨true, true, false⟩ [65, 7, 66, 10] = strBytes "A\\x07B\\n" := by
  refine ⟨?_, by decide, by decide⟩
  cases brk <;> decide

/-- C6 witness: byte 7 renders as backslash-x-zero-seven. -/
theorem C6_escape_amended_witness :
    PrintCEscaped ⟨true, true, true⟩ [7] = [92, 120, 48, 55] := by
  have h := (C6_escape_amended true).1 7 (by decide)
  rw [h]
  decide

/-- C6 counterexample: byte 255 does not pass through unchanged as the
claim states for bytes not below 0x20; as a signed char it is negative,
takes the escape branch, and the 02x conversion of the sign-extended int
prints eight f digits. -/
theorem C6_escape_counterexample :
    PrintCEscaped ⟨true, true, true⟩ [255] = strBytes "\\xffffffff" ∧
    PrintCEscaped ⟨true, true, true⟩ [255] ≠ [255] := by decide

/-- A list lookup is defined exactly on positions below the length. -/
theorem isSome_get?_iff (l : List Nat) (n : Nat) :
    (l.get? n).isSome = true ↔ n < l.length := by
  constructor
  · intro h
    by_contra hn
    have hle : l.length ≤ n := le_of_not_lt hn
    rw [List.get?_eq_none.mpr hle] at h
    simp at h
  · intro h
    rw [List.get?_eq_get h]
    rfl

/-- C10: the last-emitted-byte-was-newline update of bidi-tee-print.cc
line 247 reads copy_buf at index block_size - 1.  For a frame carrying
exactly block_size payload bytes that index is in bounds exactly when
block_size is at least 1; every frame of a capture-produced log that
reaches PrintContent satisfies this; and an arbitrary (non capture
produced) log can contain a frame with channel_closed false and
block_size 0 that reaches PrintContent with the index out of bounds. -/
theorem C10_index_in_bounds (sel : List Nat) (events : List CapEvent)
    (exitTimestamp : Int) (childExit : Nat) (exitWriteResult : Int)
    (hwf : EventsWF events) :
    (∀ f ∈ (captureRun events exitTimestamp childExit exitWriteResult).1,
      reachesPrint sel f = true → (f.payload.get? (f.header.block_size - 1)).isSome = true) ∧
    (∀ f : Frame, f.payload.length = f.header.block_size →
      ((f.payload.get? (f.header.block_size - 1)).isSome = true ↔ 1 ≤ f.header.block_size)) ∧
    reachesPrint [0, 1, 2, 15] ⟨⟨0, 1, false, 0, 0⟩, []⟩ = true ∧
    ((⟨⟨0, 1, false, 0, 0⟩, []⟩ : Frame).payload.get?
      ((⟨⟨0, 1, false, 0, 0⟩, []⟩ : Frame).header.block_size - 1)) = none := by
  have hpart2 : ∀ f : Frame, f.payload.length = f.header.block_size →
      ((f.payload.get? (f.header.block_size - 1)).isSome = true ↔ 1 ≤ f.header.block_size) := by
    intro f hlen
    rw [isSome_get?_iff]
    omega
  refine ⟨?_, hpart2, by decide, by decide⟩
  intro f hf hreach
  have hloop : f ∈ captureLoop (fun _ => false) events →
      (f.payload.get? (f.header.block_size - 1)).isSome = true := by
    intro hmem
    have hcl : f.header.channel_closed = false := by
      simp only [reachesPrint, Bool.and_eq_true, Bool.not_eq_true'] at hreach
      exact hreach.1.2
    obtain ⟨-, -, -, -, -, -, hop⟩ := mem_captureLoop hwf _ f hmem
    obtain ⟨hbs, hlen⟩ := hop hcl
    exact (hpart2 f hlen).mpr hbs
  by_cases hw : exitWriteResult < 0
  · simp only [captureRun, if_pos hw] at hf
    exact hloop hf
  · simp only [captureRun, if_neg hw, List.mem_append, List.mem_singleton] at hf
    rcases hf with hf | hf
    · exact hloop hf
    · subst hf
      simp [reachesPrint, ExitFrame] at hreach

/-- C10 witness: a one-byte data frame of a concrete capture run reaching
PrintContent has its index in bounds. -/
theorem C10_index_in_bounds_witness :
    (((⟨⟨0, 1, false, 0, 1⟩, [10]⟩ : Frame).payload.get?
      ((⟨⟨0, 1, false, 0, 1⟩, [10]⟩ : Frame).header.block_size - 1)).isSome) = true :=
  (C10_index_in_bounds [0, 1, 2, 15] [⟨1, 0, 1, [10], 17⟩] 5 0 0
      (by unfold EventsWF; decide)).1
    ⟨⟨0, 1, false, 0, 1⟩, [10]⟩ (by decide) (by decide)

end BidiTee

namespace BidiTee

/-- The fuel argument of readLoopFuel is irrelevant once it exceeds the
number of 16-byte headers the input can hold. -/
theorem readLoopFuel_congr : ∀ (f1 : Nat) (bytes : List Nat) (f2 : Nat),
    bytes.length < 16 * f1 → bytes.length < 16 * f2 →
    readLoopFuel f1 bytes = readLoopFuel f2 bytes := by
  intro f1
  induction f1 with
  | zero =>
    intro bytes f2 h1 h2
    omega
  | succ g ih =>
    intro bytes f2 h1 h2
    cases f2 with
    | zero => omega
    | succ g2 =>
      by_cases hlen : bytes.length < 16
      · rw [readLoopFuel, readLoopFuel, if_pos hlen, if_pos hlen]
      · simp only [readLoopFuel, if_neg hlen]
        by_cases hz : (decodeHeader (List.take 16 bytes)).block_size = 0
        · have hz2 : ((decodeHeader (List.take 16 bytes)).block_size == 0) = true := by
            simp [hz]
          simp only [hz2, if_true]
          rw [ih (bytes.drop 16) g2 (by simp; omega) (by simp; omega)]
        · have hz2 : ((decodeHeader (List.take 16 bytes)).block_size == 0) = false := by
            simp [hz]
          simp only [hz2, Bool.false_eq_true, if_false]
          by_cases hsh : (bytes.drop 16).length < (decodeHeader (List.take 16 bytes)).block_size
          · rw [if_pos hsh, if_pos hsh]
          · simp only [if_neg hsh]
            rw [ih ((bytes.drop 16).drop (decodeHeader (List.take 16 bytes)).block_size) g2
              (by simp; omega) (by simp; omega)]

/-- C4 amended: each step of the frame reader needs 16 header bytes, and a
tail of fewer than 16 bytes, zero or not, ends the sequence cleanly with
success (fread with item size 16 returns 0 items either way, and the loop
treats that as end-of-log); when a full header announces a positive
block_size and fewer payload bytes remain, the reader stops with an error
and without emitting the short frame, distinguishable from clean
end-of-log; when enough payload bytes remain the frame is emitted and
reading continues after it.  The frozen claim instead says 1 to 15 header
bytes are reported as a truncation error, which the counterexample
refutes. -/
theorem C4_truncation (bytes : List Nat) :
    (bytes.length < 16 → replayReadLoop bytes = ([], true)) ∧
    (16 ≤ bytes.length →
      (0 < (decodeHeader (bytes.take 16)).block_size →
        bytes.length - 16 < (decodeHeader (bytes.take 16)).block_size →
        replayReadLoop bytes = ([], false)) ∧
      ((decodeHeader (bytes.take 16)).block_size ≤ bytes.length - 16 →
        replayReadLoop bytes =
          (⟨decodeHeader (bytes.take 16),
             (bytes.drop 16).take (decodeHeader (bytes.take 16)).block_size⟩ ::
            (replayReadLoop ((bytes.drop 16).drop
              (decodeHeader (bytes.take 16)).block_size)).1,
           (replayReadLoop ((bytes.drop 16).drop
             (decodeHeader (bytes.take 16)).block_size)).2))) := by
  refine ⟨?_, ?_⟩
  · intro h
    rw [replayReadLoop, readLoopFuel, if_pos h]
  · intro h16
    have hnl : ¬ bytes.length < 16 := by omega
    constructor
    · intro hbs hshort
      have hz2 : ((decodeHeader (List.take 16 bytes)).block_size == 0) = false := by
        simp
        omega
      have hsh : (bytes.drop 16).length < (decodeHeader (List.take 16 bytes)).block_size := by
        simp
        omega
      rw [replayReadLoop]
      simp only [readLoopFuel, if_neg hnl, hz2, Bool.false_eq_true, if_false, if_pos hsh]
    · intro hok
      rw [replayReadLoop]
      by_cases hz : (decodeHeader (List.take 16 bytes)).block_size = 0
      · have hz2 : ((decodeHeader (List.take 16 bytes)).block_size == 0) = true := by
          simp [hz]
        simp only [readLoopFuel, if_neg hnl, hz2, if_true]
        rw [readLoopFuel_congr bytes.length (bytes.drop 16) ((bytes.drop 16).length + 1)
          (by simp; omega) (by simp; omega)]
        rw [hz]
        simp [replayReadLoop]
      · have hz2 : ((decodeHeader (List.take 16 bytes)).block_size == 0) = false := by
          simp [hz]
        have hsh : ¬ (bytes.drop 16).length < (decodeHeader (List.take 16 bytes)).block_size := by
          simp
          omega
        simp only [readLoopFuel, if_neg hnl, hz2, Bool.false_eq_true, if_false, if_neg hsh]
        rw [readLoopFuel_congr bytes.length
          ((bytes.drop 16).drop (decodeHeader (List.take 16 bytes)).block_size)
          (((bytes.drop 16).drop (decodeHeader (List.take 16 bytes)).block_size).length + 1)
          (by simp; omega) (by simp; omega)]
        rw [replayReadLoop]

/-- C4 witness: a well-formed 16-byte header announcing a 4-byte payload
followed by only 2 payload bytes is a truncation error: no frame emitted,
failure status. -/
theorem C4_truncation_witness :
    replayReadLoop [0, 0, 0, 0, 0, 0, 0, 0, 1, 0, 0, 0, 0, 0, 4, 0, 65, 66] = ([], false) :=
  ((C4_truncation [0, 0, 0, 0, 0, 0, 0, 0, 1, 0, 0, 0, 0, 0, 4, 0, 65, 66]).2
    (by decide)).1 (by decide) (by decide)

/-- C4 counterexample: a log tail of 8 header bytes (between 1 and 15) is
not reported as a truncation error as the claim states: the reader ends
cleanly with no frame and the replay tool exits with status 0. -/
theorem C4_truncation_counterexample :
    replayReadLoop (List.replicate 8 0) = ([], true) ∧
    (replayMainBytes [0, 1, 2, 15] TSPrint.kNone ⟨true, false, true⟩ (fun _ => "")
      (List.replicate 8 0)).2 = 0 := by decide

end BidiTee

namespace BidiTee

/-- u64bytes always produces exactly k bytes. -/
theorem u64bytes_length (k : Nat) : ∀ v : Nat, (u64bytes k v).length = k := by
  induction k with
  | zero => intro v; rfl
  | succ n ih => intro v; simp [u64bytes, ih]

/-- Little-endian write then read restores any value below 256 to the k. -/
theorem leU64_u64bytes (k : Nat) : ∀ v : Nat, v < 256 ^ k → leU64 (u64bytes k v) = v := by
  induction k with
  | zero =>
    intro v h
    simp only [pow_zero, Nat.lt_one_iff] at h
    simp [h, u64bytes, leU64]
  | succ n ih =>
    intro v h
    have hdiv : v / 256 < 256 ^ n := by
      rw [Nat.div_lt_iff_lt_mul (by norm_num)]
      calc v < 256 ^ (n + 1) := h
        _ = 256 ^ n * 256 := by rw [pow_succ]
    simp only [u64bytes, leU64]
    rw [ih (v / 256) hdiv]
    omega

/-- The 16-byte image of a well-formed header decodes back to it: the two
tools share the struct layout bit for bit. -/
theorem decodeHeader_encodeHeader (hd : BlockHeader) (hwf : HeaderWF hd) :
    decodeHeader (encodeHeader hd) = hd := by
  obtain ⟨ts, ch, cb, ec, bs⟩ := hd
  simp only [HeaderWF] at hwf
  obtain ⟨hch, hec, hbs, hts0, hts1⟩ := hwf
  have hm0 : (0 : Int) ≤ ts % 18446744073709551616 := Int.emod_nonneg _ (by norm_num)
  have hm1 : ts % 18446744073709551616 < 18446744073709551616 :=
    Int.emod_lt_of_pos _ (by norm_num)
  have hpow : (256 : Nat) ^ 8 = 18446744073709551616 := by norm_num
  cases cb <;>
  · simp only [encodeHeader, decodeHeader, exitCodeBits, if_true, if_false,
      Bool.false_eq_true, Bool.true_eq_false]
    rw [List.take_left' (u64bytes_length 8 _), List.drop_left' (u64bytes_length 8 _)]
    rw [show ∀ x : Nat, (u64bytes 8 x).take 8 = u64bytes 8 x from fun x => by
      rw [← u64bytes_length 8 x]; exact List.take_length _]
    rw [leU64_u64bytes 8 _ (by rw [hpow]; omega), leU64_u64bytes 8 _ (by rw [hpow]; omega)]
    simp only [BlockHeader.mk.injEq]
    refine ⟨?_, by omega, ?_, by omega, by omega⟩
    · split <;> omega
    · simp only [decide_eq_true_eq, decide_eq_false_iff_not]
      omega

end BidiTee

namespace BidiTee

/-- Encoding a list of well-formed frames and running the frame reader on
the bytes restores the frames exactly, with a clean end of log. -/
theorem replayReadLoop_encodeLog : ∀ (log : List Frame),
    (∀ f ∈ log, FrameWF f) → replayReadLoop (encodeLog log) = (log, true) := by
  intro log
  induction log with
  | nil => intro _; rfl
  | cons f fs ih =>
    intro hwf
    obtain ⟨hh, hplen⟩ := hwf f (List.mem_cons_self f fs)
    have hwf2 : ∀ g ∈ fs, FrameWF g := fun g hg => hwf g (List.mem_cons_of_mem f hg)
    have hdec : decodeHeader (encodeHeader f.header) = f.header := decodeHeader_encodeHeader _ hh
    have h16 : (encodeHeader f.header).length = 16 := by
      simp [encodeHeader, u64bytes_length]
    have hbytes : encodeLog (f :: fs) =
        encodeHeader f.header ++ (f.payload ++ encodeLog fs) := by
      simp [encodeLog, catl, encodeFrame]
    rw [hbytes, replayReadLoop]
    have hlt : ¬ (encodeHeader f.header ++ (f.payload ++ encodeLog fs)).length < 16 := by
      simp [h16]
    rw [readLoopFuel, if_neg hlt, List.take_left' h16, List.drop_left' h16, hdec]
    by_cases hz : f.header.block_size = 0
    · have hz2 : (f.header.block_size == 0) = true := by simp [hz]
      have hpl : f.payload = [] := List.length_eq_zero.mp (by omega)
      simp only [hz2, if_true]
      rw [readLoopFuel_congr ((encodeHeader f.header ++ (f.payload ++ encodeLog fs)).length)
        (f.payload ++ encodeLog fs) ((f.payload ++ encodeLog fs).length + 1)
        (by simp [h16]; omega) (by omega)]
      rw [show readLoopFuel ((f.payload ++ encodeLog fs).length + 1)
          (f.payload ++ encodeLog fs) = replayReadLoop (f.payload ++ encodeLog fs) from rfl]
      rw [hpl, List.nil_append, ih hwf2]
      rw [show ({ header := f.header, payload := ([] : List Nat) } : Frame) =
        { header := f.header, payload := f.payload } from by rw [hpl]]
    · have hz2 : (f.header.block_size == 0) = false := by simp [hz]
      have hsh : ¬ (f.payload ++ encodeLog fs).length < f.header.block_size := by
        simp
        omega
      simp only [hz2, Bool.false_eq_true, if_false, if_neg hsh]
      rw [List.take_left' hplen, List.drop_left' hplen]
      rw [readLoopFuel_congr ((encodeHeader f.header ++ (f.payload ++ encodeLog fs)).length)
        (encodeLog fs) ((encodeLog fs).length + 1)
        (by simp [h16]; omega) (by omega)]
      rw [show readLoopFuel ((encodeLog fs).length + 1) (encodeLog fs) =
        replayReadLoop (encodeLog fs) from rfl]
      rw [ih hwf2]

end BidiTee

namespace BidiTee

/-- With no timestamp mode, the per-channel rendered bytes are the
concatenated kNoneOut of the frames of that channel. -/
theorem renderedBytesOn_kNone (sel : List Nat) (opts : PrintOptions) (absFmt : Int → String)
    (log : List Frame) (c : Nat) :
    renderedBytesOn c ((replayGo sel TSPrint.kNone opts absFmt st0 log).1) =
      catl ((log.filter (fun f => f.header.channel == c)).map (kNoneOut sel opts)) := by
  rw [renderedBytesOn, replayGo_kNone]
  rw [List.filter_map, List.map_map]
  rfl

/-- kNoneOut of a capture-produced live-channel frame with color and
escaping off: nothing for a close marker, the payload verbatim for data. -/
theorem kNoneOut_capture (b e : Bool) (f : Frame) (hch : f.header.channel < 3)
    (hlen : f.header.channel_closed = false → f.payload.length = f.header.block_size) :
    kNoneOut [0, 1, 2, 15] ⟨false, e, b⟩ f =
      (if f.header.channel_closed then [] else
        (if e then PrintCEscaped ⟨false, e, b⟩ f.payload else f.payload)) := by
  have h3 : f.header.channel = 0 ∨ f.header.channel = 1 ∨ f.header.channel = 2 := by omega
  have hcont : [0, 1, 2, 15].contains f.header.channel = true := by
    rcases h3 with h | h | h <;> simp [h]
  cases hb : f.header.channel_closed
  · have hl := hlen hb
    have h15 : (f.header.channel == 15) = false := by
      simp
      omega
    have htake : f.payload.take f.header.block_size = f.payload := by
      rw [← hl]
      exact List.take_length _
    cases e <;> simp [kNoneOut, hcont, hb, h15, PrintContent, htake] <;> (intros; omega)
  · simp [kNoneOut, hcont, hb]

/-- The per-channel payload concatenation of the capture loop frames equals
the byte stream actually read from that channel. -/
theorem captureLoop_readBytesOn (c : Fin 3) : ∀ (events : List CapEvent)
    (closedf : Fin 3 → Bool),
    catl (((captureLoop closedf events).filter
        (fun f => f.header.channel == c.val && !f.header.channel_closed)).map
      (fun f => f.payload)) = readBytesOn closedf c events := by
  intro events
  induction events with
  | nil => intro closedf; rfl
  | cons e es ih =>
    intro closedf
    by_cases hc : closedf e.chan = true
    · simp only [captureLoop, readBytesOn, hc, if_true]
      exact ih _
    · simp only [captureLoop, readBytesOn, hc, Bool.false_eq_true, if_false]
      have hstate : ∀ x : Bool, (CopyUsingBuffer ⟨e.chan.val, x⟩ e.timestamp e.readResult
          e.scratch e.teeWritten).1.channel_closed = decide (e.readResult ≤ 0) := by
        intro x
        simp [CopyUsingBuffer]
      simp only [hstate]
      by_cases hr : (0 : Int) < e.readResult
      · have hrle : ¬ (e.readResult ≤ 0) := not_le.mpr hr
        by_cases hec : e.chan = c
        · have hpred : ((CopyUsingBuffer ⟨e.chan.val, false⟩ e.timestamp e.readResult
              e.scratch e.teeWritten).2.1.header.channel == c.val &&
              !(CopyUsingBuffer ⟨e.chan.val, false⟩ e.timestamp e.readResult
              e.scratch e.teeWritten).2.1.header.channel_closed) = true := by
            simp [CopyUsingBuffer, hrle, hec]
          simp only [List.filter_cons]
          rw [if_pos hpred]
          simp only [List.map_cons, catl]
          rw [ih]
          have hpay : (CopyUsingBuffer ⟨e.chan.val, false⟩ e.timestamp e.readResult
              e.scratch e.teeWritten).2.1.payload = e.scratch.take e.readResult.toNat := by
            simp [CopyUsingBuffer, hr]
          rw [hpay, if_pos ⟨hec, hr⟩]
        · have hvne : e.chan.val ≠ c.val := fun hv => hec (Fin.val_injective hv)
          have hpred : ((CopyUsingBuffer ⟨e.chan.val, false⟩ e.timestamp e.readResult
              e.scratch e.teeWritten).2.1.header.channel == c.val &&
              !(CopyUsingBuffer ⟨e.chan.val, false⟩ e.timestamp e.readResult
              e.scratch e.teeWritten).2.1.header.channel_closed) = false := by
            simp [CopyUsingBuffer, hvne]
          simp only [List.filter_cons]
          rw [if_neg (by simp [hpred])]
          rw [ih, if_neg (fun hand => hec hand.1)]
          rfl
      · have hrle : e.readResult ≤ 0 := not_lt.mp hr
        have hpred : ((CopyUsingBuffer ⟨e.chan.val, false⟩ e.timestamp e.readResult
            e.scratch e.teeWritten).2.1.header.channel == c.val &&
            !(CopyUsingBuffer ⟨e.chan.val, false⟩ e.timestamp e.readResult
            e.scratch e.teeWritten).2.1.header.channel_closed) = false := by
          simp [CopyUsingBuffer, hrle]
        simp only [List.filter_cons]
        rw [if_neg (by simp [hpred])]
        rw [ih, if_neg (fun hand => absurd hand.2 (not_lt.mpr hrle))]
        rfl

end BidiTee

namespace BidiTee

/-- C1: end-to-end round trip.  Drive the capture tool with any sequence of
reads (the blocks it captures, each at most 65535 bytes by the buffer
bound), encode the resulting log to bytes exactly as the writev calls do,
run the replay frame reader on those bytes, and render with no channel
filtering (the default selection 0,1,2,15), no color, no escaping and no
timestamp mode: the reader ends cleanly, and for each live channel the
concatenation of the bytes rendered for the frames of that channel is
exactly the byte stream that was read from that channel, in order. -/
theorem C1_roundtrip (events : List CapEvent) (exitTimestamp : Int) (childExit : Nat)
    (exitWriteResult : Int) (b : Bool) (absFmt : Int → String)
    (hwf : EventsWF events) (hw : 0 ≤ exitWriteResult)
    (hts0 : -(9223372036854775808 : Int) ≤ exitTimestamp)
    (hts1 : exitTimestamp < 9223372036854775808) (hce : childExit < 256) :
    ∀ c : Fin 3,
      (replayReadLoop (encodeLog (captureRun events exitTimestamp childExit
          exitWriteResult).1)).2 = true ∧
      renderedBytesOn c.val
        ((replayGo [0, 1, 2, 15] TSPrint.kNone ⟨false, false, b⟩ absFmt st0
          (replayReadLoop (encodeLog (captureRun events exitTimestamp childExit
            exitWriteResult).1)).1).1) =
        readBytesOn (fun _ => false) c events := by
  intro c
  have hnl : ¬ (exitWriteResult < 0) := not_lt.mpr hw
  have hlogeq : (captureRun events exitTimestamp childExit exitWriteResult).1 =
      captureLoop (fun _ => false) events ++ [ExitFrame exitTimestamp childExit] := by
    simp [captureRun, hnl]
  have hallwf : ∀ f ∈ (captureRun events exitTimestamp childExit exitWriteResult).1,
      FrameWF f := by
    intro f hf
    rw [hlogeq] at hf
    rcases List.mem_append.mp hf with hf | hf
    · obtain ⟨h1, h2, h3, h4, h5, h6, h7⟩ := mem_captureLoop hwf _ f hf
      refine ⟨⟨by omega, by omega, h3, h4, h5⟩, ?_⟩
      cases hb : f.header.channel_closed
      · exact (h7 hb).2
      · obtain ⟨hbs0, hpl⟩ := h6 hb
        simp [hpl, hbs0]
    · rw [List.mem_singleton] at hf
      subst hf
      exact ⟨⟨by norm_num [ExitFrame], hce, by norm_num [ExitFrame], hts0, hts1⟩, rfl⟩
  have hparse := replayReadLoop_encodeLog _ hallwf
  refine ⟨by rw [hparse], ?_⟩
  rw [hparse]
  rw [renderedBytesOn_kNone]
  rw [hlogeq, List.filter_append]
  have hc3 := c.isLt
  have hex : ([ExitFrame exitTimestamp childExit].filter
      (fun f => f.header.channel == c.val)) = [] := by
    simp [ExitFrame]
    omega
  rw [hex, List.append_nil]
  have hmapc : ((captureLoop (fun _ => false) events).filter
      (fun f => f.header.channel == c.val)).map (kNoneOut [0, 1, 2, 15] ⟨false, false, b⟩) =
      ((captureLoop (fun _ => false) events).filter
        (fun f => f.header.channel == c.val)).map
          (fun f => if f.header.channel_closed then [] else f.payload) := by
    apply List.map_congr_left
    intro f hf
    have hfm := List.mem_of_mem_filter hf
    obtain ⟨h1, -, -, -, -, -, h7⟩ := mem_captureLoop hwf _ f hfm
    have hko := kNoneOut_capture b false f h1 (fun hb => (h7 hb).2)
    simpa using hko
  rw [hmapc]
  rw [catl_filter_out (fun f => if f.header.channel_closed then [] else f.payload)
    (fun f => !f.header.channel_closed)
    (fun f hf => by
      simp only [Bool.not_eq_false'] at hf
      simp [hf])
    ((captureLoop (fun _ => false) events).filter (fun f => f.header.channel == c.val))]
  have hmapc2 : ((((captureLoop (fun _ => false) events).filter
      (fun f => f.header.channel == c.val)).filter (fun f => !f.header.channel_closed)).map
        (fun f => if f.header.channel_closed then [] else f.payload)) =
      ((((captureLoop (fun _ => false) events).filter
        (fun f => f.header.channel == c.val)).filter (fun f => !f.header.channel_closed)).map
          (fun f => f.payload)) := by
    apply List.map_congr_left
    intro f hf
    have hq := List.of_mem_filter hf
    simp only [Bool.not_eq_true'] at hq
    simp [hq]
  rw [hmapc2]
  have hff : (((captureLoop (fun _ => false) events).filter
      (fun f => f.header.channel == c.val)).filter (fun f => !f.header.channel_closed)) =
      (captureLoop (fun _ => false) events).filter
        (fun f => f.header.channel == c.val && !f.header.channel_closed) := by
    rw [List.filter_filter]
    apply List.filter_congr
    intro f _
    rw [Bool.and_comm]
  rw [hff]
  exact captureLoop_readBytesOn c events (fun _ => false)

/-- C1 witness: one captured stdin block of one byte, round-tripped through
the encoded log and the replay renderer. -/
theorem C1_roundtrip_witness :
    renderedBytesOn 0
      ((replayGo [0, 1, 2, 15] TSPrint.kNone ⟨false, false, false⟩ (fun _ => "") st0
        (replayReadLoop (encodeLog (captureRun [⟨0, 5, 1, [72], 17⟩] 9 0 16).1)).1).1) =
      readBytesOn (fun _ => false) 0 [⟨0, 5, 1, [72], 17⟩] :=
  (C1_roundtrip [⟨0, 5, 1, [72], 17⟩] 9 0 16 false (fun _ => "")
    (by unfold EventsWF; decide) (by decide) (by decide) (by decide) (by decide) 0).2

end BidiTee
